import Mathlib

/-!
Verification of the frontend message framer in
`src/postgres-protocol/src/message/frontend.rs`.

The encoders mutate a caller-owned `Vec<u8>` and return `Result`.  We embed
them as state-passing functions `Buf → Except E α × Buf`: the second
component is the buffer after the call, returned on success and on failure
alike (the Rust code does not roll back partial writes on error).

Machine integers are embedded as `Nat`/`Int`; the big-endian byte encodings
apply the appropriate `% 2 ^ w` explicitly.  Helpers that live at the crate
root rather than in the source file under scrutiny (`i32::from_usize`,
`i16::from_usize`, `IsNull`, `write_nullable`, the `Oid` alias) are modelled
from the specification and are marked as such in their doc comments.
-/

namespace frontend

/-- A byte buffer: the embedding of the Rust `Vec<u8>` output buffer. -/
abbrev Buf := List UInt8

/-- Caller-visible category of an embedded `io::Error`.  The specification
distinguishes framing-overflow errors from invalid-input errors. -/
inductive ErrorKind where
  | invalidInput
  | overflow
deriving DecidableEq

/-- Embedding of `std::io::Error`: a kind together with its message. -/
structure IoError where
  kind : ErrorKind
  msg : String
deriving DecidableEq

/-- Embedding of `Box<dyn Error + Sync + Send>`: either an arbitrary
caller-supplied error value or an `io::Error` injected by the standard
`From<io::Error>` impl for boxed errors. -/
inductive BoxError where
  | other (s : String)
  | io (e : IoError)
deriving DecidableEq

/-- The two-constructor error of the Bind encoder, from the source:
`Conversion` wraps the boxed error coming out of the value-serialization
channel, `Serialization` wraps an `io::Error`. -/
inductive BindError where
  | Conversion (e : BoxError)
  | Serialization (e : IoError)
deriving DecidableEq

/-- Modelled from the spec: the two-state marker returned by the Bind value
serializer to indicate whether a parameter is SQL NULL.  Declared at the
crate root, which is not among the sources here. -/
inductive IsNull where
  | yes
  | no
deriving DecidableEq

/-- Modelled from the spec: the crate-root `Oid` alias for 32-bit type ids. -/
abbrev Oid := Nat

instance exceptDecidableEq {ε α : Type} [DecidableEq ε] [DecidableEq α] :
    DecidableEq (Except ε α) := fun a b =>
  match a, b with
  | Except.ok x, Except.ok y => decidable_of_iff (x = y) (by simp)
  | Except.ok _, Except.error _ => isFalse (by simp)
  | Except.error _, Except.ok _ => isFalse (by simp)
  | Except.error x, Except.error y => decidable_of_iff (x = y) (by simp)

/-- An encoder computation: the embedding of a Rust function taking
`&mut Vec<u8>` and returning `Result<α, E>`.  The buffer component of the
result is meaningful on both success and failure. -/
abbrev EncM (E α : Type) := Buf → Except E α × Buf

/-- Sequencing of encoder computations: the embedding of the `?` operator.
On failure the partial buffer is kept and the continuation is skipped. -/
def step {E α β : Type} (r : Except E α × Buf) (f : α → EncM E β) : Except E β × Buf :=
  match r with
  | (Except.ok a, buf) => f a buf
  | (Except.error e, buf) => (Except.error e, buf)

/-- Lift a pure `Except` value into an encoder computation, applying an error
conversion: the embedding of `expr?` on a buffer-free result under a
`From` instance. -/
def checkL {E α : Type} (lift : IoError → E) (r : Except IoError α) : EncM E α :=
  fun buf => (r.mapError lift, buf)

/-- Apply an error conversion to a whole computation: the embedding of `?`
applied to a sub-encoder whose error type differs from the caller's. -/
def adapt {E F α : Type} (lift : E → F) (x : EncM E α) : EncM F α := fun buf =>
  match x buf with
  | (Except.ok a, buf) => (Except.ok a, buf)
  | (Except.error e, buf) => (Except.error (lift e), buf)

/-- Big-endian bytes of `m` in two bytes (used after `% 2 ^ 16`). -/
def be2 (m : Nat) : List UInt8 :=
  [UInt8.ofNat (m / 256 % 256), UInt8.ofNat (m % 256)]

/-- Big-endian bytes of `m` in four bytes (used after `% 2 ^ 32`). -/
def be4 (m : Nat) : List UInt8 :=
  [UInt8.ofNat (m / 16777216 % 256), UInt8.ofNat (m / 65536 % 256),
    UInt8.ofNat (m / 256 % 256), UInt8.ofNat (m % 256)]

/-- The 4 bytes written by `BigEndian::write_i32`: two's-complement
big-endian encoding of `n`. -/
def i32BE (n : Int) : List UInt8 := be4 (n % 4294967296).toNat

/-- The 2 bytes written by `BigEndian::write_i16`. -/
def i16BE (n : Int) : List UInt8 := be2 (n % 65536).toNat

/-- The 4 bytes written by `write_u32::<BigEndian>`. -/
def u32BE (n : Nat) : List UInt8 := be4 (n % 4294967296)

/-- Decode the first four bytes as a big-endian two's-complement 32-bit
signed integer (the receiving side's reading of a length field). -/
def readI32BE : Buf → Int
  | b0 :: b1 :: b2 :: b3 :: _ =>
      let m := ((b0.toNat * 256 + b1.toNat) * 256 + b2.toNat) * 256 + b3.toNat
      if m < 2147483648 then (m : Int) else (m : Int) - 4294967296
  | _ => 0

/-- Modelled from the spec: the crate-root `i32::from_usize` used for length
fields; it fails with a framing-overflow error when the value exceeds the
maximum signed 32-bit value.  The crate root is not among the sources. -/
def i32_from_usize (n : Nat) : Except IoError Int :=
  if n ≤ 2147483647 then Except.ok (n : Int)
  else Except.error ⟨ErrorKind.overflow, "value too large to transmit"⟩

/-- Modelled from the spec: the crate-root `i16::from_usize` used for array
counts; it fails with a framing-overflow error when the value exceeds the
maximum signed 16-bit value (32767). -/
def i16_from_usize (n : Nat) : Except IoError Int :=
  if n ≤ 32767 then Except.ok (n : Int)
  else Except.error ⟨ErrorKind.overflow, "value too large to transmit"⟩

/-- In-place rewrite of already-reserved bytes: the embedding of
`BigEndian::write_iNN(&mut buf[base..], v)`. -/
def patchAt (buf : Buf) (base : Nat) (bytes : Buf) : Buf :=
  buf.take base ++ bytes ++ buf.drop (base + bytes.length)

/-- The framed-body writer `write_body` from the source: reserve 4 bytes,
run the body closure, then patch the reserved slot with the byte count from
the start of the length field to the end of what the closure wrote. -/
def write_body {E α : Type} (lift : IoError → E) (F : EncM E α) : EncM E Unit := fun buf =>
  let base := buf.length
  step (F (buf ++ [0, 0, 0, 0])) fun _ buf =>
  step (checkL lift (i32_from_usize (buf.length - base)) buf) fun size buf =>
  (Except.ok (), patchAt buf base (i32BE size))

/-- The loop inside `write_counted`: serialize each item in order while
incrementing the running count, stopping at the first failure. -/
def wcLoop {E T : Type} (serializer : T → EncM E Unit) : List T → Nat → EncM E Nat
  | [], count => fun buf => (Except.ok count, buf)
  | item :: rest, count => fun buf =>
      step (serializer item buf) fun _ buf => wcLoop serializer rest (count + 1) buf

/-- The counted-sequence writer `write_counted` from the source: reserve 2
bytes, serialize the items, then patch the reservation with the count as a
big-endian signed 16-bit integer. -/
def write_counted {E T : Type} (lift : IoError → E) (items : List T)
    (serializer : T → EncM E Unit) : EncM E Unit := fun buf =>
  let base := buf.length
  let buf := buf ++ [0, 0]
  step (wcLoop serializer items 0 buf) fun count buf =>
  step (checkL lift (i16_from_usize count) buf) fun count buf =>
  (Except.ok (), patchAt buf base (i16BE count))

/-- The C-string writer `write_cstr` from the source: reject byte strings
containing an embedded zero, otherwise append the bytes and a zero
terminator. -/
def write_cstr (s : List UInt8) : EncM IoError Unit := fun buf =>
  if s.contains 0 then
    (Except.error ⟨ErrorKind.invalidInput, "string contains embedded null"⟩, buf)
  else (Except.ok (), buf ++ s ++ [0])

/-- Modelled from the spec: the crate-root nullable-value writer.  The
serializer writes the value's bytes to a scratch buffer and reports
nullness; on `no` the writer emits a 4-byte length (validated to fit the
signed 32-bit range) followed by those bytes, on `yes` it emits the null
sentinel length -1 and no payload. -/
def write_nullable {E : Type} (lift : IoError → E) (serializer : EncM E IsNull) :
    EncM E Unit := fun buf =>
  match serializer [] with
  | (Except.error e, _) => (Except.error e, buf)
  | (Except.ok IsNull.yes, _) => (Except.ok (), buf ++ i32BE (-1))
  | (Except.ok IsNull.no, scratch) =>
      match i32_from_usize scratch.length with
      | Except.error e => (Except.error (lift e), buf)
      | Except.ok len => (Except.ok (), buf ++ i32BE len ++ scratch)

/-- The Bind encoder from the source.  The per-value serializer has error
type `BoxError` (the Rust closure returns `Result<IsNull, Box<dyn Error>>`),
so the values array and the nullable writer run with `E = BoxError`, their
internal `io::Error`s being injected through `BoxError.io`; only the final
`?` at this level converts the whole channel into `BindError.Conversion`.
The portal and statement strings and the two format-code arrays run with
`E = io::Error` and convert into `BindError.Serialization`. -/
def bind {T : Type} (portal statement : Buf) (formats : List Int) (values : List T)
    (serializer : T → EncM BoxError IsNull) (result_formats : List Int) :
    EncM BindError Unit := fun buf =>
  let buf := buf ++ [66]
  write_body BindError.Serialization (fun buf =>
    step (adapt BindError.Serialization (write_cstr portal) buf) fun _ buf =>
    step (adapt BindError.Serialization (write_cstr statement) buf) fun _ buf =>
    step (adapt BindError.Serialization
        (write_counted id formats (fun f buf => (Except.ok (), buf ++ i16BE f))) buf) fun _ buf =>
    step (adapt BindError.Conversion
        (write_counted BoxError.io values
          (fun v => write_nullable BoxError.io (serializer v))) buf) fun _ buf =>
    adapt BindError.Serialization
      (write_counted id result_formats (fun f buf => (Except.ok (), buf ++ i16BE f))) buf) buf

/-- The CancelRequest encoder.  In the source the trailing `.unwrap()` is
inside the function; here the `Except` is returned and the unwrap is made
explicit at the call site in `Message.serialize`. -/
def cancel_request (process_id secret_key : Int) : EncM IoError Unit :=
  write_body id (fun buf =>
    (Except.ok (), buf ++ i32BE 80877102 ++ i32BE process_id ++ i32BE secret_key))

/-- The Close encoder: tag `C`, then object-kind byte and name C-string. -/
def close (variant : UInt8) (name : Buf) : EncM IoError Unit := fun buf =>
  let buf := buf ++ [67]
  write_body id (fun buf => write_cstr name (buf ++ [variant])) buf

/-- The generic CopyData encoder: tag `d`, then the payload verbatim. -/
def copy_data (data : Buf) : EncM IoError Unit := fun buf =>
  let buf := buf ++ [100]
  write_body id (fun buf => (Except.ok (), buf ++ data)) buf

/-- The streaming CopyData value: a byte source paired with the precomputed
frame length. -/
structure CopyData where
  buf : Buf
  len : Int
deriving DecidableEq

/-- `CopyData::new` from the source: length is `remaining + 4`, checked
against the signed 32-bit range (`usize` addition is embedded as exact
`Nat` addition). -/
def CopyData.new (data : Buf) : Except IoError CopyData :=
  if data.length + 4 ≤ 2147483647 then
    Except.ok ⟨data, ((data.length + 4 : Nat) : Int)⟩
  else Except.error ⟨ErrorKind.invalidInput, "message length overflow"⟩

/-- `CopyData::write` from the source: append tag `d`, the big-endian
32-bit length, then the payload. -/
def CopyData.write (c : CopyData) (out : Buf) : Buf :=
  out ++ [100] ++ i32BE c.len ++ c.buf

/-- The CopyDone encoder: tag `c`, empty framed body (`.unwrap()` made
explicit at the call site). -/
def copy_done : EncM IoError Unit := fun buf =>
  write_body id (fun buf => (Except.ok (), buf)) (buf ++ [99])

/-- The CopyFail encoder: tag `f`, then the message C-string. -/
def copy_fail (message : Buf) : EncM IoError Unit := fun buf =>
  let buf := buf ++ [102]
  write_body id (fun buf => write_cstr message buf) buf

/-- The Describe encoder: tag `D`, then object-kind byte and name. -/
def describe (variant : UInt8) (name : Buf) : EncM IoError Unit := fun buf =>
  let buf := buf ++ [68]
  write_body id (fun buf => write_cstr name (buf ++ [variant])) buf

/-- The Execute encoder: tag `E`, then portal C-string and max-rows. -/
def execute (portal : Buf) (max_rows : Int) : EncM IoError Unit := fun buf =>
  let buf := buf ++ [69]
  write_body id (fun buf =>
    step (write_cstr portal buf) fun _ buf => (Except.ok (), buf ++ i32BE max_rows)) buf

/-- The Parse encoder: tag `P`, then name, query, and counted 32-bit type
identifiers. -/
def parse (name q : Buf) (param_types : List Oid) : EncM IoError Unit := fun buf =>
  let buf := buf ++ [80]
  write_body id (fun buf =>
    step (write_cstr name buf) fun _ buf =>
    step (write_cstr q buf) fun _ buf =>
    write_counted id param_types (fun t buf => (Except.ok (), buf ++ u32BE t)) buf) buf

/-- The PasswordMessage encoder: tag `p`, then the password as a C-string. -/
def password_message (password : Buf) : EncM IoError Unit := fun buf =>
  let buf := buf ++ [112]
  write_body id (fun buf => write_cstr password buf) buf

/-- The Query encoder: tag `Q`, then the query text as a C-string. -/
def query (q : Buf) : EncM IoError Unit := fun buf =>
  let buf := buf ++ [81]
  write_body id (fun buf => write_cstr q buf) buf

/-- The SaslInitialResponse encoder: tag `p`, then mechanism C-string, a
plain 32-bit length, and the raw response bytes. -/
def sasl_initial_response (mechanism data : Buf) : EncM IoError Unit := fun buf =>
  let buf := buf ++ [112]
  write_body id (fun buf =>
    step (write_cstr mechanism buf) fun _ buf =>
    step (checkL id (i32_from_usize data.length) buf) fun len buf =>
    (Except.ok (), buf ++ i32BE len ++ data)) buf

/-- The SaslResponse encoder: tag `p`, then the raw response bytes. -/
def sasl_response (data : Buf) : EncM IoError Unit := fun buf =>
  let buf := buf ++ [112]
  write_body id (fun buf => (Except.ok (), buf ++ data)) buf

/-- The SslRequest encoder: no tag, framed body is the magic code. -/
def ssl_request : EncM IoError Unit :=
  write_body id (fun buf => (Except.ok (), buf ++ i32BE 80877103))

/-- The parameter loop inside `startup_message`: each pair as two
consecutive C-strings. -/
def startupParams : List (Buf × Buf) → EncM IoError Unit
  | [] => fun buf => (Except.ok (), buf)
  | (key, value) :: rest => fun buf =>
      step (write_cstr key buf) fun _ buf =>
      step (write_cstr value buf) fun _ buf =>
      startupParams rest buf

/-- The StartupMessage encoder: no tag; framed body is the protocol version
code 196608, the parameter pairs, and a trailing zero byte. -/
def startup_message (parameters : List (Buf × Buf)) : EncM IoError Unit :=
  write_body id (fun buf =>
    step (startupParams parameters (buf ++ i32BE 196608)) fun _ buf =>
    (Except.ok (), buf ++ [0]))

/-- The Sync encoder: tag `S`, empty framed body. -/
def sync : EncM IoError Unit := fun buf =>
  write_body id (fun buf => (Except.ok (), buf)) (buf ++ [83])

/-- The Terminate encoder: tag `X`, empty framed body. -/
def terminate : EncM IoError Unit := fun buf =>
  write_body id (fun buf => (Except.ok (), buf)) (buf ++ [88])

/-- The closed message union from the source (the hidden, uninhabitable
`__ForExtensibility` variant is omitted). -/
inductive Message where
  | Bind (portal statement : Buf) (formats : List Int) (values : List (Option Buf))
      (result_formats : List Int)
  | CancelRequest (process_id secret_key : Int)
  | Close (variant : UInt8) (name : Buf)
  | CopyData (data : Buf)
  | CopyDone
  | CopyFail (message : Buf)
  | Describe (variant : UInt8) (name : Buf)
  | Execute (portal : Buf) (max_rows : Int)
  | Parse (name q : Buf) (param_types : List Oid)
  | PasswordMessage (password : Buf)
  | Query (q : Buf)
  | SaslInitialResponse (mechanism data : Buf)
  | SaslResponse (data : Buf)
  | SslRequest
  | StartupMessage (parameters : List (Buf × Buf))
  | Sync
  | Terminate

/-- Outcome of `Message::serialize`: success, a returned `io::Error`, or a
panic (`unreachable!()` or a failed `.unwrap()`). -/
inductive POut (E : Type) where
  | ok
  | err (e : E)
  | panic
deriving DecidableEq

/-- Map an encoder result onto a serialize outcome for branches that
return the `io::Result` unchanged. -/
def toPOut (r : Except IoError Unit × Buf) : POut IoError × Buf :=
  match r with
  | (Except.ok _, buf) => (POut.ok, buf)
  | (Except.error e, buf) => (POut.err e, buf)

/-- Map an encoder result onto a serialize outcome for branches that call
`.unwrap()`: an error is a panic. -/
def unwrapPOut (r : Except IoError Unit × Buf) : POut IoError × Buf :=
  match r with
  | (Except.ok _, buf) => (POut.ok, buf)
  | (Except.error _, buf) => (POut.panic, buf)

/-- The per-value serializer that `Message::serialize` supplies to `bind`:
copy the payload and report `no` for `Some`, report `yes` for `None`. -/
def internalSerializer (v : Option Buf) : EncM BoxError IsNull := fun buf =>
  match v with
  | some v => (Except.ok IsNull.no, buf ++ v)
  | none => (Except.ok IsNull.yes, buf)

/-- `Message::serialize` from the source.  The Bind branch maps
`BindError::Conversion` to `unreachable!()`, embedded as `POut.panic`. -/
def Message.serialize (m : Message) : Buf → POut IoError × Buf := fun buf =>
  match m with
  | Message.Bind portal statement formats values result_formats =>
      match bind portal statement formats values internalSerializer result_formats buf with
      | (Except.ok _, buf) => (POut.ok, buf)
      | (Except.error (BindError.Conversion _), buf) => (POut.panic, buf)
      | (Except.error (BindError.Serialization e), buf) => (POut.err e, buf)
  | Message.CancelRequest pid key => unwrapPOut (cancel_request pid key buf)
  | Message.Close variant name => toPOut (close variant name buf)
  | Message.CopyData data => toPOut (copy_data data buf)
  | Message.CopyDone => unwrapPOut (copy_done buf)
  | Message.CopyFail message => toPOut (copy_fail message buf)
  | Message.Describe variant name => toPOut (describe variant name buf)
  | Message.Execute portal max_rows => toPOut (execute portal max_rows buf)
  | Message.Parse name q param_types => toPOut (parse name q param_types buf)
  | Message.PasswordMessage password => toPOut (password_message password buf)
  | Message.Query q => toPOut (query q buf)
  | Message.SaslInitialResponse mechanism data =>
      toPOut (sasl_initial_response mechanism data buf)
  | Message.SaslResponse data => toPOut (sasl_response data buf)
  | Message.SslRequest => unwrapPOut (ssl_request buf)
  | Message.StartupMessage parameters => toPOut (startup_message parameters buf)
  | Message.Sync => unwrapPOut (sync buf)
  | Message.Terminate => unwrapPOut (terminate buf)

/-- The leading tag byte of each message kind, empty for the tag-less
kinds (used only in theorem statements). -/
def msgTag : Message → List UInt8
  | Message.Bind _ _ _ _ _ => [66]
  | Message.CancelRequest _ _ => []
  | Message.Close _ _ => [67]
  | Message.CopyData _ => [100]
  | Message.CopyDone => [99]
  | Message.CopyFail _ => [102]
  | Message.Describe _ _ => [68]
  | Message.Execute _ _ => [69]
  | Message.Parse _ _ _ => [80]
  | Message.PasswordMessage _ => [112]
  | Message.Query _ => [81]
  | Message.SaslInitialResponse _ _ => [112]
  | Message.SaslResponse _ => [112]
  | Message.SslRequest => []
  | Message.StartupMessage _ => []
  | Message.Sync => [83]
  | Message.Terminate => [88]

/-- Concatenation of the byte images of a list of items (used only in
theorem statements and proofs). -/
def concatMap {T : Type} (f : T → Buf) : List T → Buf
  | [] => []
  | t :: ts => f t ++ concatMap f ts

/-- The wire image of one startup parameter pair: two C-strings. -/
def pairBytes (p : Buf × Buf) : Buf := p.1 ++ [0] ++ p.2 ++ [0]

/-- The startup parameters of the worked example in the spec:
`[("user", "alice"), ("database", "app")]` as byte lists. -/
def demoParams : List (Buf × Buf) :=
  [([117, 115, 101, 114], [97, 108, 105, 99, 101]),
   ([100, 97, 116, 97, 98, 97, 115, 101], [97, 112, 112])]

/-- The expected encoding of `demoParams`: length field 33, version code
196608, the four C-strings, and the trailing zero byte. -/
def demoStartupBytes : Buf :=
  [0, 0, 0, 33, 0, 3, 0, 0,
   117, 115, 101, 114, 0, 97, 108, 105, 99, 101, 0,
   100, 97, 116, 97, 98, 97, 115, 101, 0, 97, 112, 112, 0, 0]

/-- A demonstration value serializer used in witnesses: reports NULL for
values below 2 and fails with a boxed conversion error otherwise. -/
def demoSer (n : Nat) : EncM BoxError IsNull := fun buf =>
  if n < 2 then (Except.ok IsNull.yes, buf) else (Except.error (BoxError.other "bad"), buf)

/-- The buffer contents of a Bind frame after the tag, the 4-byte length
placeholder, the portal and statement C-strings and the patched formats
array have been written (used in proofs about the values array). -/
def bindPre (portal statement : Buf) (formats : List Int) (buf : Buf) : Buf :=
  ((((buf ++ [66]) ++ [0, 0, 0, 0]) ++ (portal ++ [0])) ++ (statement ++ [0])) ++
    (i16BE ((formats.length : Nat) : Int) ++ concatMap i16BE formats)

/-- A computation only ever appends to the buffer it is given, whatever its
outcome. -/
def AppendOnly {E α : Type} (x : EncM E α) : Prop :=
  ∀ buf : Buf, ∃ r : Buf, (x buf).2 = buf ++ r

/-- A Bind-level computation never fails with the `Conversion`
constructor. -/
def NoConv {α : Type} (x : EncM BindError α) : Prop :=
  ∀ (buf : Buf) (s : BoxError), (x buf).1 ≠ Except.error (BindError.Conversion s)

/-! ### Basic run lemmas -/

theorem step_ok {E α β : Type} (a : α) (buf : Buf) (f : α → EncM E β) :
    step (Except.ok a, buf) f = f a buf := rfl

theorem step_err {E α β : Type} (e : E) (buf : Buf) (f : α → EncM E β) :
    step (Except.error e, buf) f = (Except.error e, buf) := rfl

theorem checkL_ok {E α : Type} (lift : IoError → E) {r : Except IoError α} {a : α}
    (h : r = Except.ok a) (buf : Buf) : checkL lift r buf = (Except.ok a, buf) := by
  simp [checkL, h, Except.mapError]

theorem checkL_err {E α : Type} (lift : IoError → E) {r : Except IoError α} {e : IoError}
    (h : r = Except.error e) (buf : Buf) :
    checkL lift r buf = (Except.error (lift e), buf) := by
  simp [checkL, h, Except.mapError]

theorem adapt_ok {E F α : Type} (lift : E → F) {x : EncM E α} {buf out : Buf} {a : α}
    (h : x buf = (Except.ok a, out)) : adapt lift x buf = (Except.ok a, out) := by
  simp [adapt, h]

theorem adapt_err {E F α : Type} (lift : E → F) {x : EncM E α} {buf out : Buf} {e : E}
    (h : x buf = (Except.error e, out)) : adapt lift x buf = (Except.error (lift e), out) := by
  simp [adapt, h]

theorem i32_from_usize_ok {n : Nat} (h : n ≤ 2147483647) :
    i32_from_usize n = Except.ok (n : Int) := by
  simp [i32_from_usize, h]

theorem i32_from_usize_err {n : Nat} (h : 2147483647 < n) :
    i32_from_usize n = Except.error ⟨ErrorKind.overflow, "value too large to transmit"⟩ := by
  simp [i32_from_usize]
  omega

theorem i16_from_usize_ok {n : Nat} (h : n ≤ 32767) :
    i16_from_usize n = Except.ok (n : Int) := by
  simp [i16_from_usize, h]

theorem i16_from_usize_err {n : Nat} (h : 32767 < n) :
    i16_from_usize n = Except.error ⟨ErrorKind.overflow, "value too large to transmit"⟩ := by
  simp [i16_from_usize]
  omega

@[simp] theorem i32BE_length (n : Int) : (i32BE n).length = 4 := rfl

@[simp] theorem i16BE_length (n : Int) : (i16BE n).length = 2 := rfl

@[simp] theorem u32BE_length (n : Nat) : (u32BE n).length = 4 := rfl

theorem patchAt_append (buf mid r bytes : Buf) (h : mid.length = bytes.length) :
    patchAt (buf ++ (mid ++ r)) buf.length bytes = buf ++ (bytes ++ r) := by
  have h1 : (buf ++ (mid ++ r)).take buf.length = buf := List.take_left buf (mid ++ r)
  have h2 : (buf ++ (mid ++ r)).drop (buf.length + bytes.length) = r := by
    have : buf ++ (mid ++ r) = (buf ++ mid) ++ r := by simp [List.append_assoc]
    rw [this, ← h]
    have hlen : buf.length + mid.length = (buf ++ mid).length := by simp
    rw [hlen]
    exact List.drop_left (buf ++ mid) r
  simp [patchAt, h1, h2]

/-! ### Characterization of `write_body` -/

theorem write_body_ok_of {E α : Type} (lift : IoError → E) (F : EncM E α) (buf : Buf)
    (a : α) (rest : Buf)
    (hF : F (buf ++ [0, 0, 0, 0]) = (Except.ok a, buf ++ ([0, 0, 0, 0] ++ rest)))
    (hlen : 4 + rest.length ≤ 2147483647) :
    write_body lift F buf =
      (Except.ok (), buf ++ (i32BE ((4 + rest.length : Nat) : Int) ++ rest)) := by
  have hlen2 : (buf ++ ([0, 0, 0, 0] ++ rest)).length - buf.length = 4 + rest.length := by
    simp
    omega
  simp only [write_body, hF, step_ok, hlen2,
    checkL_ok lift (i32_from_usize_ok hlen), step_ok]
  rw [patchAt_append buf [0, 0, 0, 0] rest (i32BE ((4 + rest.length : Nat) : Int)) (by simp)]

theorem write_body_err_of {E α : Type} (lift : IoError → E) (F : EncM E α) (buf out : Buf)
    (e : E) (hF : F (buf ++ [0, 0, 0, 0]) = (Except.error e, out)) :
    write_body lift F buf = (Except.error e, out) := by
  simp only [write_body, hF, step_err]

theorem write_body_overflow {E α : Type} (lift : IoError → E) (F : EncM E α) (buf : Buf)
    (a : α) (rest : Buf)
    (hF : F (buf ++ [0, 0, 0, 0]) = (Except.ok a, buf ++ ([0, 0, 0, 0] ++ rest)))
    (hlen : 2147483647 < 4 + rest.length) :
    write_body lift F buf =
      (Except.error (lift ⟨ErrorKind.overflow, "value too large to transmit"⟩),
        buf ++ ([0, 0, 0, 0] ++ rest)) := by
  have hlen2 : (buf ++ ([0, 0, 0, 0] ++ rest)).length - buf.length = 4 + rest.length := by
    simp
    omega
  simp only [write_body, hF, step_ok, hlen2,
    checkL_err lift (i32_from_usize_err hlen), step_err]

theorem write_body_ok_elim {E α : Type} (lift : IoError → E) (F : EncM E α)
    (hA : AppendOnly F) (buf out : Buf)
    (h : write_body lift F buf = (Except.ok (), out)) :
    ∃ (rest : Buf) (a : α),
      F (buf ++ [0, 0, 0, 0]) = (Except.ok a, buf ++ ([0, 0, 0, 0] ++ rest)) ∧
      out = buf ++ (i32BE ((4 + rest.length : Nat) : Int) ++ rest) ∧
      4 + rest.length ≤ 2147483647 := by
  obtain ⟨r, hr⟩ := hA (buf ++ [0, 0, 0, 0])
  rcases hF : F (buf ++ [0, 0, 0, 0]) with ⟨res, buf2⟩
  rw [hF] at hr
  have hbuf2 : buf2 = buf ++ ([0, 0, 0, 0] ++ r) := by
    simpa [List.append_assoc] using hr
  subst hbuf2
  cases res with
  | error e =>
      rw [write_body_err_of lift F buf _ e hF] at h
      exact absurd h (by simp)
  | ok a =>
      by_cases hlen : 4 + r.length ≤ 2147483647
      · refine ⟨r, a, rfl, ?_, hlen⟩
        rw [write_body_ok_of lift F buf a r hF hlen] at h
        have hout := congrArg Prod.snd h
        simpa using hout.symm
      · rw [write_body_overflow lift F buf a r hF (by omega)] at h
        exact absurd h (by simp)

/-! ### Characterization of `write_counted` -/

theorem wcLoop_ok_count {E T : Type} (ser : T → EncM E Unit) :
    ∀ (items : List T) (c : Nat) (buf out : Buf) (c2 : Nat),
      wcLoop ser items c buf = (Except.ok c2, out) → c2 = c + items.length := by
  intro items
  induction items with
  | nil =>
      intro c buf out c2 h
      simp only [wcLoop] at h
      have h1 : c = c2 := by
        have := congrArg Prod.fst h
        simpa using this
      simp [← h1]
  | cons item rest ih =>
      intro c buf out c2 h
      simp only [wcLoop] at h
      rcases hs : ser item buf with ⟨res, buf2⟩
      rw [hs] at h
      cases res with
      | error e => simp [step_err] at h
      | ok a =>
          rw [step_ok] at h
          have := ih (c + 1) buf2 out c2 h
          simp only [this, List.length_cons]
          omega

theorem write_counted_ok_of {E T : Type} (lift : IoError → E) (items : List T)
    (ser : T → EncM E Unit) (buf : Buf) (c : Nat) (rest : Buf)
    (hl : wcLoop ser items 0 (buf ++ [0, 0]) = (Except.ok c, buf ++ ([0, 0] ++ rest)))
    (hc : c ≤ 32767) :
    write_counted lift items ser buf =
      (Except.ok (), buf ++ (i16BE ((c : Nat) : Int) ++ rest)) := by
  simp only [write_counted, hl, step_ok, checkL_ok lift (i16_from_usize_ok hc), step_ok]
  rw [patchAt_append buf [0, 0] rest (i16BE ((c : Nat) : Int)) (by simp)]

theorem write_counted_overflow {E T : Type} (lift : IoError → E) (items : List T)
    (ser : T → EncM E Unit) (buf out : Buf) (c : Nat)
    (hl : wcLoop ser items 0 (buf ++ [0, 0]) = (Except.ok c, out))
    (hc : 32767 < c) :
    write_counted lift items ser buf =
      (Except.error (lift ⟨ErrorKind.overflow, "value too large to transmit"⟩), out) := by
  simp only [write_counted, hl, step_ok, checkL_err lift (i16_from_usize_err hc), step_err]

theorem write_counted_err {E T : Type} (lift : IoError → E) (items : List T)
    (ser : T → EncM E Unit) (buf out : Buf) (e : E)
    (hl : wcLoop ser items 0 (buf ++ [0, 0]) = (Except.error e, out)) :
    write_counted lift items ser buf = (Except.error e, out) := by
  simp only [write_counted, hl, step_err]

/-! ### Append-only combinators -/

theorem appendOnly_step {E α β : Type} {x : EncM E α} {f : α → EncM E β}
    (hx : AppendOnly x) (hf : ∀ a, AppendOnly (f a)) :
    AppendOnly (fun buf => step (x buf) f) := by
  intro buf
  obtain ⟨r, hr⟩ := hx buf
  rcases h : x buf with ⟨res, buf2⟩
  rw [h] at hr
  have hbuf2 : buf2 = buf ++ r := by simpa using hr
  subst hbuf2
  cases res with
  | error e => exact ⟨r, by simp [h, step_err]⟩
  | ok a =>
      obtain ⟨r2, hr2⟩ := hf a (buf ++ r)
      exact ⟨r ++ r2, by simp [h, step_ok, hr2, List.append_assoc]⟩

theorem appendOnly_extend {E α : Type} (a : α) (s : Buf) :
    AppendOnly (fun buf => ((Except.ok a : Except E α), buf ++ s)) :=
  fun _ => ⟨s, rfl⟩

theorem appendOnly_id {E α : Type} (r : Except E α) :
    AppendOnly (fun buf => (r, buf)) :=
  fun buf => ⟨[], by simp⟩

theorem appendOnly_checkL {E α : Type} (lift : IoError → E) (r : Except IoError α) :
    AppendOnly (checkL lift r) :=
  fun buf => ⟨[], by simp [checkL]⟩

theorem appendOnly_adapt {E F α : Type} (lift : E → F) {x : EncM E α}
    (hx : AppendOnly x) : AppendOnly (adapt lift x) := by
  intro buf
  obtain ⟨r, hr⟩ := hx buf
  rcases h : x buf with ⟨res, buf2⟩
  rw [h] at hr
  have hbuf2 : buf2 = buf ++ r := by simpa using hr
  subst hbuf2
  cases res with
  | error e => exact ⟨r, by simp [adapt, h]⟩
  | ok a => exact ⟨r, by simp [adapt, h]⟩

theorem appendOnly_shift {E α : Type} {x : EncM E α} (hx : AppendOnly x) (s : Buf) :
    AppendOnly (fun buf => x (buf ++ s)) := by
  intro buf
  obtain ⟨r, hr⟩ := hx (buf ++ s)
  exact ⟨s ++ r, by simp [hr, List.append_assoc]⟩

theorem appendOnly_write_cstr (s : List UInt8) : AppendOnly (write_cstr s) := by
  intro buf
  by_cases h : s.contains 0 = true
  · exact ⟨[], by rw [write_cstr, if_pos h]; simp⟩
  · exact ⟨s ++ [0], by rw [write_cstr, if_neg h, List.append_assoc]⟩

theorem appendOnly_write_nullable {E : Type} (lift : IoError → E)
    (ser : EncM E IsNull) : AppendOnly (write_nullable lift ser) := by
  intro buf
  rcases h : ser [] with ⟨res, scratch⟩
  cases res with
  | error e => exact ⟨[], by simp [write_nullable, h]⟩
  | ok isn =>
      cases isn with
      | yes => exact ⟨i32BE (-1), by simp [write_nullable, h]⟩
      | no =>
          rcases h2 : i32_from_usize scratch.length with e | len
          · exact ⟨[], by simp [write_nullable, h, h2]⟩
          · exact ⟨i32BE len ++ scratch, by simp [write_nullable, h, h2, List.append_assoc]⟩

theorem appendOnly_wcLoop {E T : Type} {ser : T → EncM E Unit}
    (hser : ∀ t, AppendOnly (ser t)) :
    ∀ (items : List T) (c : Nat), AppendOnly (wcLoop ser items c) := by
  intro items
  induction items with
  | nil => intro c buf; exact ⟨[], by simp [wcLoop]⟩
  | cons item rest ih =>
      intro c
      exact appendOnly_step (hser item) (fun _ => ih (c + 1))

theorem appendOnly_write_counted {E T : Type} (lift : IoError → E) (items : List T)
    {ser : T → EncM E Unit} (hser : ∀ t, AppendOnly (ser t)) :
    AppendOnly (write_counted lift items ser) := by
  intro buf
  obtain ⟨r, hr⟩ := appendOnly_wcLoop hser items 0 (buf ++ [0, 0])
  rcases h : wcLoop ser items 0 (buf ++ [0, 0]) with ⟨res, buf2⟩
  rw [h] at hr
  have hbuf2 : buf2 = buf ++ ([0, 0] ++ r) := by
    simpa [List.append_assoc] using hr
  subst hbuf2
  cases res with
  | error e =>
      exact ⟨[0, 0] ++ r, by rw [write_counted_err lift items ser buf _ e h]⟩
  | ok c =>
      by_cases hc : c ≤ 32767
      · exact ⟨i16BE ((c : Nat) : Int) ++ r, by
          rw [write_counted_ok_of lift items ser buf c r h hc]⟩
      · exact ⟨[0, 0] ++ r, by
          rw [write_counted_overflow lift items ser buf (buf ++ ([0, 0] ++ r)) c h (by omega)]⟩

theorem appendOnly_write_body {E α : Type} (lift : IoError → E) {F : EncM E α}
    (hF : AppendOnly F) : AppendOnly (write_body lift F) := by
  intro buf
  obtain ⟨r, hr⟩ := hF (buf ++ [0, 0, 0, 0])
  rcases h : F (buf ++ [0, 0, 0, 0]) with ⟨res, buf2⟩
  rw [h] at hr
  have hbuf2 : buf2 = buf ++ ([0, 0, 0, 0] ++ r) := by
    simpa [List.append_assoc] using hr
  subst hbuf2
  cases res with
  | error e =>
      exact ⟨[0, 0, 0, 0] ++ r, by
        rw [write_body_err_of lift F buf _ e h]⟩
  | ok a =>
      by_cases hlen : 4 + r.length ≤ 2147483647
      · exact ⟨i32BE ((4 + r.length : Nat) : Int) ++ r, by
          rw [write_body_ok_of lift F buf a r h hlen]⟩
      · exact ⟨[0, 0, 0, 0] ++ r, by
          rw [write_body_overflow lift F buf a r h (by omega)]⟩

/-! ### Run lemmas for the C-string writer and the decoders -/

theorem write_cstr_ok {s : List UInt8} (h : s.contains 0 = false) (buf : Buf) :
    write_cstr s buf = (Except.ok (), buf ++ (s ++ [0])) := by
  rw [write_cstr, if_neg (by intro hc; rw [h] at hc; exact absurd hc (by decide)),
    List.append_assoc]

theorem write_cstr_err {s : List UInt8} (h : s.contains 0 = true) (buf : Buf) :
    write_cstr s buf =
      (Except.error ⟨ErrorKind.invalidInput, "string contains embedded null"⟩, buf) := by
  rw [write_cstr, if_pos h]

theorem toNat_ofNat8 (n : Nat) : (UInt8.ofNat n).toNat = n % 256 := rfl

theorem readI32BE_i32BE (n : Nat) (h : n ≤ 2147483647) (rest : Buf) :
    readI32BE (i32BE (n : Int) ++ rest) = (n : Int) := by
  have hmod : ((n : Int) % 4294967296).toNat = n := by omega
  simp only [i32BE, hmod, be4, readI32BE, List.cons_append, List.nil_append, toNat_ofNat8]
  have hm : (((n / 16777216 % 256 % 256) * 256 + n / 65536 % 256 % 256) * 256 +
      n / 256 % 256 % 256) * 256 + n % 256 % 256 = n := by omega
  rw [hm, if_pos (by omega)]

theorem drop_two_append (buf t x : Buf) :
    (buf ++ (t ++ x)).drop (buf.length + t.length) = x := by
  rw [← List.append_assoc]
  have hlen : buf.length + t.length = (buf ++ t).length := by simp
  rw [hlen]
  exact List.drop_left (buf ++ t) x

/-! ### Framed-output shape of a tagged encoder -/

theorem framed_shape {E α : Type} (lift : IoError → E) {F : EncM E α} (hA : AppendOnly F)
    (t buf out : Buf)
    (h : write_body lift F (buf ++ t) = (Except.ok (), out)) :
    ∃ body : Buf,
      out = buf ++ (t ++ (i32BE ((4 + body.length : Nat) : Int) ++ body)) ∧
      4 + body.length ≤ 2147483647 := by
  obtain ⟨rest, a, _, hout, hlen⟩ := write_body_ok_elim lift F hA (buf ++ t) out h
  exact ⟨rest, by rw [hout, List.append_assoc], hlen⟩

theorem framed_shape_full {E α : Type} (lift : IoError → E) {F : EncM E α}
    (hA : AppendOnly F) (t buf out : Buf)
    (h : write_body lift F (buf ++ t) = (Except.ok (), out)) :
    ∃ body : Buf,
      out = buf ++ (t ++ (i32BE ((4 + body.length : Nat) : Int) ++ body)) ∧
      4 + body.length ≤ 2147483647 ∧
      readI32BE (out.drop (buf.length + t.length)) = ((4 + body.length : Nat) : Int) := by
  obtain ⟨body, hout, hlen⟩ := framed_shape lift hA t buf out h
  refine ⟨body, hout, hlen, ?_⟩
  rw [hout, drop_two_append]
  exact readI32BE_i32BE (4 + body.length) hlen body

/-! ### Outcome mapping in `Message.serialize` -/

theorem toPOut_ok_elim {r : Except IoError Unit × Buf} {out : Buf}
    (h : toPOut r = (POut.ok, out)) : r = (Except.ok (), out) := by
  rcases r with ⟨res, b⟩
  cases res with
  | ok a =>
      cases a
      have := congrArg Prod.snd h
      simp only [toPOut] at this
      simp [this]
  | error e =>
      have := congrArg Prod.fst h
      simp [toPOut] at this

theorem unwrapPOut_ok_elim {r : Except IoError Unit × Buf} {out : Buf}
    (h : unwrapPOut r = (POut.ok, out)) : r = (Except.ok (), out) := by
  rcases r with ⟨res, b⟩
  cases res with
  | ok a =>
      cases a
      have := congrArg Prod.snd h
      simp only [unwrapPOut] at this
      simp [this]
  | error e =>
      have := congrArg Prod.fst h
      simp [unwrapPOut] at this

theorem toPOut_snd (r : Except IoError Unit × Buf) : (toPOut r).2 = r.2 := by
  rcases r with ⟨res, b⟩
  cases res <;> rfl

theorem unwrapPOut_snd (r : Except IoError Unit × Buf) : (unwrapPOut r).2 = r.2 := by
  rcases r with ⟨res, b⟩
  cases res <;> rfl

/-! ### Append-only facts for the individual encoders -/

theorem appendOnly_startupParams : ∀ ps, AppendOnly (startupParams ps) := by
  intro ps
  induction ps with
  | nil => intro buf; exact ⟨[], by simp [startupParams]⟩
  | cons p rest ih =>
      rcases p with ⟨k, v⟩
      exact appendOnly_step (appendOnly_write_cstr k) fun _ =>
        appendOnly_step (appendOnly_write_cstr v) fun _ => ih

theorem appendOnly_bindF {T : Type} (portal statement : Buf) (formats : List Int)
    (values : List T) (serializer : T → EncM BoxError IsNull) (result_formats : List Int) :
    AppendOnly (fun buf =>
      step (adapt BindError.Serialization (write_cstr portal) buf) fun _ buf =>
      step (adapt BindError.Serialization (write_cstr statement) buf) fun _ buf =>
      step (adapt BindError.Serialization
          (write_counted id formats (fun f buf => (Except.ok (), buf ++ i16BE f))) buf) fun _ buf =>
      step (adapt BindError.Conversion
          (write_counted BoxError.io values
            (fun v => write_nullable BoxError.io (serializer v))) buf) fun _ buf =>
      adapt BindError.Serialization
        (write_counted id result_formats (fun f buf => (Except.ok (), buf ++ i16BE f))) buf) :=
  appendOnly_step (appendOnly_adapt _ (appendOnly_write_cstr portal)) fun _ =>
  appendOnly_step (appendOnly_adapt _ (appendOnly_write_cstr statement)) fun _ =>
  appendOnly_step (appendOnly_adapt _
    (appendOnly_write_counted id formats (fun f => appendOnly_extend () (i16BE f)))) fun _ =>
  appendOnly_step (appendOnly_adapt _
    (appendOnly_write_counted BoxError.io values
      (fun v => appendOnly_write_nullable BoxError.io (serializer v)))) fun _ =>
  appendOnly_adapt _
    (appendOnly_write_counted id result_formats (fun f => appendOnly_extend () (i16BE f)))

/-! ### Claim C8 -/

/-- C8: for every SslRequest and every CancelRequest the encoded output has
no leading tag byte; the SslRequest framed body is exactly the big-endian
magic code 80877103 (frame length 8), and the CancelRequest framed body is
the magic code 80877102 followed by the process id and the secret key, each
as a big-endian 32-bit integer (frame length 16). -/
theorem C8_untagged_requests :
    (∀ buf : Buf,
      ssl_request buf = (Except.ok (), buf ++ (i32BE 8 ++ i32BE 80877103)))
    ∧ (∀ (process_id secret_key : Int) (buf : Buf),
      cancel_request process_id secret_key buf =
        (Except.ok (),
          buf ++ (i32BE 16 ++ (i32BE 80877102 ++ (i32BE process_id ++ i32BE secret_key))))) := by
  constructor
  · intro buf
    have h := write_body_ok_of (E := IoError) id
      (fun buf => (Except.ok (), buf ++ i32BE 80877103)) buf () (i32BE 80877103)
      (by simp [List.append_assoc]) (by simp)
    rw [ssl_request, h]
    norm_num
  · intro process_id secret_key buf
    have h := write_body_ok_of (E := IoError) id
      (fun buf => (Except.ok (), buf ++ i32BE 80877102 ++ i32BE process_id ++ i32BE secret_key))
      buf () (i32BE 80877102 ++ (i32BE process_id ++ i32BE secret_key))
      (by simp [List.append_assoc]) (by simp)
    rw [cancel_request, h]
    norm_num

/-! ### Claim C6 -/

/-- C6: if the bytes appended by the body closure plus the 4 reserved length
bytes exceed the maximum signed 32-bit value, the framed-body writer returns
an overflow error (leaving the placeholder unpatched) rather than truncating
or wrapping; and any failure of the body closure is propagated unchanged. -/
theorem C6_write_body_errors :
    (∀ (E α : Type) (lift : IoError → E) (F : EncM E α) (buf : Buf) (a : α) (rest : Buf),
      F (buf ++ [0, 0, 0, 0]) = (Except.ok a, buf ++ ([0, 0, 0, 0] ++ rest)) →
      2147483647 < 4 + rest.length →
      write_body lift F buf =
        (Except.error (lift ⟨ErrorKind.overflow, "value too large to transmit"⟩),
          buf ++ ([0, 0, 0, 0] ++ rest)))
    ∧ (∀ (E α : Type) (lift : IoError → E) (F : EncM E α) (buf out : Buf) (e : E),
      F (buf ++ [0, 0, 0, 0]) = (Except.error e, out) →
      write_body lift F buf = (Except.error e, out)) :=
  ⟨fun _ _ lift F buf a rest hF hlen => write_body_overflow lift F buf a rest hF hlen,
   fun _ _ lift F buf out e hF => write_body_err_of lift F buf out e hF⟩

/-- Helper for the C6 witness: the run of a pure-append body closure on the
empty buffer, stated for an abstract payload so that instantiating it at a
huge literal list never forces the list to be evaluated. -/
theorem extendF_run (r : Buf) :
    (fun b => ((Except.ok () : Except IoError Unit), b ++ r)) (([] : Buf) ++ [0, 0, 0, 0]) =
      (Except.ok (), ([] : Buf) ++ ([0, 0, 0, 0] ++ r)) := by
  simp only [List.nil_append]

/-- Witness for C6 at concrete inputs: a body of 2147483644 zero bytes
overflows the signed 32-bit length, and a failing body closure has its
error returned unchanged. -/
theorem C6_witness :
    write_body id
        (fun b => ((Except.ok () : Except IoError Unit),
          b ++ List.replicate 2147483644 (0 : UInt8))) [] =
      (Except.error ⟨ErrorKind.overflow, "value too large to transmit"⟩,
        [] ++ ([0, 0, 0, 0] ++ List.replicate 2147483644 (0 : UInt8)))
    ∧ write_body id
        (fun _ => ((Except.error ⟨ErrorKind.invalidInput, "bad body"⟩ : Except IoError Unit),
          ([] : Buf))) [] =
      (Except.error ⟨ErrorKind.invalidInput, "bad body"⟩, []) := by
  constructor
  · exact C6_write_body_errors.1 IoError Unit id _ [] () (List.replicate 2147483644 0)
      (extendF_run (List.replicate 2147483644 0)) (by rw [List.length_replicate]; omega)
  · exact C6_write_body_errors.2 IoError Unit id _ [] [] ⟨ErrorKind.invalidInput, "bad body"⟩ rfl

/-! ### Claim C3 -/

/-- C3: for every payload for which both succeed, the streaming copy-data
path (constructing a `CopyData` value and writing it) produces exactly the
same byte sequence as the generic `copy_data` encoder: tag byte 100, a
4-byte big-endian length equal to the payload length plus 4, then the
payload verbatim. -/
theorem C3_copy_data_refinement (data buf out : Buf) (c : CopyData)
    (hnew : CopyData.new data = Except.ok c)
    (hgen : copy_data data buf = (Except.ok (), out)) :
    CopyData.write c buf = out ∧
    out = buf ++ ([100] ++ (i32BE ((data.length + 4 : Nat) : Int) ++ data)) := by
  rw [CopyData.new] at hnew
  by_cases hb : data.length + 4 ≤ 2147483647
  · rw [if_pos hb] at hnew
    have hc : c = ⟨data, ((data.length + 4 : Nat) : Int)⟩ := by
      injection hnew with h1
      exact h1.symm
    subst hc
    have hF : (fun b => ((Except.ok () : Except IoError Unit), b ++ data))
        ((buf ++ [100]) ++ [0, 0, 0, 0]) =
        (Except.ok (), (buf ++ [100]) ++ ([0, 0, 0, 0] ++ data)) := by
      simp [List.append_assoc]
    have h := write_body_ok_of (E := IoError) id
      (fun b => (Except.ok (), b ++ data)) (buf ++ [100]) () data hF (by omega)
    rw [copy_data, h] at hgen
    have hout := congrArg Prod.snd hgen
    simp only at hout
    have hcast : ((4 + data.length : Nat) : Int) = ((data.length + 4 : Nat) : Int) := by
      omega
    rw [hcast] at hout
    constructor
    · rw [CopyData.write, ← hout]
      simp [List.append_assoc]
    · rw [← hout, List.append_assoc]
  · rw [if_neg hb] at hnew
    exact absurd hnew (by simp)

/-- Witness for C3 at the concrete payload `[1, 2, 3]`. -/
theorem C3_witness :
    CopyData.write ⟨[1, 2, 3], 7⟩ [] = [100, 0, 0, 0, 7, 1, 2, 3] ∧
    [100, 0, 0, 0, 7, 1, 2, 3] =
      ([] : Buf) ++ ([100] ++ (i32BE ((([1, 2, 3] : Buf).length + 4 : Nat) : Int) ++ [1, 2, 3])) :=
  C3_copy_data_refinement [1, 2, 3] [] [100, 0, 0, 0, 7, 1, 2, 3] ⟨[1, 2, 3], 7⟩
    (by decide) (by decide)

/-! ### Claim C5 (corrected) -/

/-- C5 counterexample: encoding a Close whose name contains a zero byte does
fail with an invalid-input error, but bytes have already been emitted: the
tag, the 4-byte length placeholder, and the variant byte remain in the
buffer, so the buffer length is not unchanged (6 instead of 0). -/
theorem C5_counterexample :
    (close 83 [0] []).1 =
      Except.error ⟨ErrorKind.invalidInput, "string contains embedded null"⟩ ∧
    (close 83 [0] []).2.length = 6 ∧
    (close 83 [0] []).2.length ≠ List.length ([] : Buf) := by decide

/-- C5 amended: for every Close whose name contains a zero byte, encoding
fails with an invalid-input error; the C-string writer itself emits no
bytes, but the close encoder has already appended the tag byte, the 4-byte
length placeholder and the variant byte, so the buffer is the pre-call
bytes plus exactly those 6 bytes (the caller must roll back). -/
theorem C5_close_embedded_zero (variant : UInt8) (name : Buf) (buf : Buf)
    (h : name.contains 0 = true) :
    close variant name buf =
      (Except.error ⟨ErrorKind.invalidInput, "string contains embedded null"⟩,
        buf ++ [67, 0, 0, 0, 0, variant]) ∧
    write_cstr name buf =
      (Except.error ⟨ErrorKind.invalidInput, "string contains embedded null"⟩, buf) := by
  constructor
  · rw [close]
    have hF : (fun b => write_cstr name (b ++ [variant])) ((buf ++ [67]) ++ [0, 0, 0, 0]) =
        (Except.error ⟨ErrorKind.invalidInput, "string contains embedded null"⟩,
          ((buf ++ [67]) ++ [0, 0, 0, 0]) ++ [variant]) := by
      simp only []
      rw [write_cstr_err h]
    rw [write_body_err_of id _ (buf ++ [67]) _ _ hF]
    simp [List.append_assoc]
  · exact write_cstr_err h buf

/-- Witness for the amended C5 at concrete inputs. -/
theorem C5_witness :
    close 83 [0] [] =
      (Except.error ⟨ErrorKind.invalidInput, "string contains embedded null"⟩,
        [] ++ [67, 0, 0, 0, 0, 83]) ∧
    write_cstr [0] [] =
      (Except.error ⟨ErrorKind.invalidInput, "string contains embedded null"⟩, []) :=
  C5_close_embedded_zero 83 [0] [] (by decide)

/-! ### Claim C1 -/

theorem framed_shape_untagged {E α : Type} (lift : IoError → E) {F : EncM E α}
    (hA : AppendOnly F) (buf out : Buf)
    (h : write_body lift F buf = (Except.ok (), out)) :
    ∃ body : Buf,
      out = buf ++ (([] : Buf) ++ (i32BE ((4 + body.length : Nat) : Int) ++ body)) ∧
      4 + body.length ≤ 2147483647 ∧
      readI32BE (out.drop (buf.length + List.length ([] : Buf))) =
        ((4 + body.length : Nat) : Int) := by
  apply framed_shape_full lift hA [] buf out
  rw [List.append_nil]
  exact h

theorem appendOnly_taggedBody {E α : Type} (lift : IoError → E) {F : EncM E α}
    (hF : AppendOnly F) (t : Buf) :
    AppendOnly (fun buf => write_body lift F (buf ++ t)) :=
  appendOnly_shift (appendOnly_write_body lift hF) t

/-- C1: for every message kind successfully encoded into a buffer, the
4-byte big-endian signed integer written at the position of the length
field equals the total number of bytes from the start of the length field
(inclusive) through the end of the message body, excluding the leading tag
byte when the kind has one. -/
theorem C1_framing_invariant (m : Message) (buf out : Buf)
    (h : Message.serialize m buf = (POut.ok, out)) :
    ∃ body : Buf,
      out = buf ++ (msgTag m ++ (i32BE ((4 + body.length : Nat) : Int) ++ body)) ∧
      4 + body.length ≤ 2147483647 ∧
      readI32BE (out.drop (buf.length + (msgTag m).length)) =
        ((4 + body.length : Nat) : Int) := by
  cases m with
  | Bind portal statement formats values result_formats =>
      simp only [Message.serialize] at h
      rcases hb : bind portal statement formats values internalSerializer result_formats buf
        with ⟨res, b2⟩
      rw [hb] at h
      match res with
      | Except.error (BindError.Conversion e) => simp at h
      | Except.error (BindError.Serialization e) => simp at h
      | Except.ok a =>
          cases a
          have hout : b2 = out := by simpa using congrArg Prod.snd h
          subst hout
          simp only [bind] at hb
          simp only [msgTag]
          exact framed_shape_full BindError.Serialization
            (appendOnly_bindF portal statement formats values internalSerializer result_formats)
            [66] buf b2 hb
  | CancelRequest process_id secret_key =>
      simp only [Message.serialize] at h
      have henc := unwrapPOut_ok_elim h
      simp only [cancel_request] at henc
      simp only [msgTag]
      exact framed_shape_untagged id
        (fun b => ⟨i32BE 80877102 ++ i32BE process_id ++ i32BE secret_key,
          by simp [List.append_assoc]⟩) buf out henc
  | Close variant name =>
      simp only [Message.serialize] at h
      have henc := toPOut_ok_elim h
      simp only [close] at henc
      simp only [msgTag]
      exact framed_shape_full id (appendOnly_shift (appendOnly_write_cstr name) [variant])
        [67] buf out henc
  | CopyData data =>
      simp only [Message.serialize] at h
      have henc := toPOut_ok_elim h
      simp only [copy_data] at henc
      simp only [msgTag]
      exact framed_shape_full id (appendOnly_extend () data) [100] buf out henc
  | CopyDone =>
      simp only [Message.serialize] at h
      have henc := unwrapPOut_ok_elim h
      simp only [copy_done] at henc
      simp only [msgTag]
      exact framed_shape_full id (appendOnly_id (Except.ok ())) [99] buf out henc
  | CopyFail message =>
      simp only [Message.serialize] at h
      have henc := toPOut_ok_elim h
      simp only [copy_fail] at henc
      simp only [msgTag]
      exact framed_shape_full id (appendOnly_write_cstr message) [102] buf out henc
  | Describe variant name =>
      simp only [Message.serialize] at h
      have henc := toPOut_ok_elim h
      simp only [describe] at henc
      simp only [msgTag]
      exact framed_shape_full id (appendOnly_shift (appendOnly_write_cstr name) [variant])
        [68] buf out henc
  | Execute portal max_rows =>
      simp only [Message.serialize] at h
      have henc := toPOut_ok_elim h
      simp only [execute] at henc
      simp only [msgTag]
      exact framed_shape_full id
        (appendOnly_step (appendOnly_write_cstr portal)
          (fun _ => appendOnly_extend () (i32BE max_rows))) [69] buf out henc
  | Parse name q param_types =>
      simp only [Message.serialize] at h
      have henc := toPOut_ok_elim h
      simp only [parse] at henc
      simp only [msgTag]
      exact framed_shape_full id
        (appendOnly_step (appendOnly_write_cstr name) fun _ =>
          appendOnly_step (appendOnly_write_cstr q) fun _ =>
          appendOnly_write_counted id param_types (fun t => appendOnly_extend () (u32BE t)))
        [80] buf out henc
  | PasswordMessage password =>
      simp only [Message.serialize] at h
      have henc := toPOut_ok_elim h
      simp only [password_message] at henc
      simp only [msgTag]
      exact framed_shape_full id (appendOnly_write_cstr password) [112] buf out henc
  | Query q =>
      simp only [Message.serialize] at h
      have henc := toPOut_ok_elim h
      simp only [query] at henc
      simp only [msgTag]
      exact framed_shape_full id (appendOnly_write_cstr q) [81] buf out henc
  | SaslInitialResponse mechanism data =>
      simp only [Message.serialize] at h
      have henc := toPOut_ok_elim h
      simp only [sasl_initial_response] at henc
      simp only [msgTag]
      exact framed_shape_full id
        (appendOnly_step (appendOnly_write_cstr mechanism) fun _ =>
          appendOnly_step (appendOnly_checkL id (i32_from_usize data.length)) fun len =>
          fun b => ⟨i32BE len ++ data, by simp [List.append_assoc]⟩)
        [112] buf out henc
  | SaslResponse data =>
      simp only [Message.serialize] at h
      have henc := toPOut_ok_elim h
      simp only [sasl_response] at henc
      simp only [msgTag]
      exact framed_shape_full id (appendOnly_extend () data) [112] buf out henc
  | SslRequest =>
      simp only [Message.serialize] at h
      have henc := unwrapPOut_ok_elim h
      simp only [ssl_request] at henc
      simp only [msgTag]
      exact framed_shape_untagged id (appendOnly_extend () (i32BE 80877103)) buf out henc
  | StartupMessage parameters =>
      simp only [Message.serialize] at h
      have henc := toPOut_ok_elim h
      simp only [startup_message] at henc
      simp only [msgTag]
      exact framed_shape_untagged id
        (appendOnly_step (appendOnly_shift (appendOnly_startupParams parameters)
          (i32BE 196608)) (fun _ => appendOnly_extend () [0])) buf out henc
  | Sync =>
      simp only [Message.serialize] at h
      have henc := unwrapPOut_ok_elim h
      simp only [sync] at henc
      simp only [msgTag]
      exact framed_shape_full id (appendOnly_id (Except.ok ())) [83] buf out henc
  | Terminate =>
      simp only [Message.serialize] at h
      have henc := unwrapPOut_ok_elim h
      simp only [terminate] at henc
      simp only [msgTag]
      exact framed_shape_full id (appendOnly_id (Except.ok ())) [88] buf out henc

/-- Witness for C1: the Sync message on the empty buffer encodes to tag 83
followed by the length field 4 and an empty body. -/
theorem C1_witness :
    Message.serialize Message.Sync [] = (POut.ok, [83, 0, 0, 0, 4]) ∧
    ∃ body : Buf,
      [83, 0, 0, 0, 4] =
        ([] : Buf) ++ (msgTag Message.Sync ++ (i32BE ((4 + body.length : Nat) : Int) ++ body)) ∧
      4 + body.length ≤ 2147483647 ∧
      readI32BE (([83, 0, 0, 0, 4] : Buf).drop
          (([] : Buf).length + (msgTag Message.Sync).length)) =
        ((4 + body.length : Nat) : Int) :=
  ⟨by decide, C1_framing_invariant Message.Sync [] [83, 0, 0, 0, 4] (by decide)⟩

/-! ### Claim C9 -/

theorem appendOnly_bind {T : Type} (portal statement : Buf) (formats : List Int)
    (values : List T) (serializer : T → EncM BoxError IsNull) (result_formats : List Int) :
    AppendOnly (bind portal statement formats values serializer result_formats) := by
  intro buf
  obtain ⟨r, hr⟩ := appendOnly_write_body BindError.Serialization
    (appendOnly_bindF portal statement formats values serializer result_formats) (buf ++ [66])
  refine ⟨[66] ++ r, ?_⟩
  simp only [bind]
  rw [hr, List.append_assoc]

theorem serialize_bind_snd (portal statement : Buf) (formats : List Int)
    (values : List (Option Buf)) (result_formats : List Int) (buf : Buf) :
    (Message.serialize (Message.Bind portal statement formats values result_formats) buf).2 =
      (bind portal statement formats values internalSerializer result_formats buf).2 := by
  simp only [Message.serialize]
  rcases hb : bind portal statement formats values internalSerializer result_formats buf
    with ⟨res, b2⟩
  cases res with
  | ok a => rfl
  | error e => cases e <;> rfl

/-- C9: for every encoder call on any message kind, whether it succeeds or
fails, the bytes that were in the output buffer before the call are still a
prefix of the buffer afterward: the encoder only appends (so the length
never decreases), and the in-place patching of reserved length and count
placeholders rewrites only bytes the same call itself reserved.  The same
holds for the generic `bind` encoder with an arbitrary value serializer. -/
theorem C9_buffer_append_only :
    (∀ (m : Message) (buf : Buf), ∃ r : Buf, (Message.serialize m buf).2 = buf ++ r)
    ∧ (∀ (T : Type) (portal statement : Buf) (formats : List Int) (values : List T)
        (serializer : T → EncM BoxError IsNull) (result_formats : List Int) (buf : Buf),
        ∃ r : Buf,
          (bind portal statement formats values serializer result_formats buf).2 = buf ++ r) := by
  constructor
  · intro m buf
    cases m with
    | Bind portal statement formats values result_formats =>
        obtain ⟨r, hr⟩ :=
          appendOnly_bind portal statement formats values internalSerializer result_formats buf
        exact ⟨r, by rw [serialize_bind_snd]; exact hr⟩
    | CancelRequest process_id secret_key =>
        simp only [Message.serialize, unwrapPOut_snd]
        exact appendOnly_write_body id
          (fun b => ⟨i32BE 80877102 ++ i32BE process_id ++ i32BE secret_key,
            by simp [List.append_assoc]⟩) buf
    | Close variant name =>
        simp only [Message.serialize, toPOut_snd]
        exact appendOnly_taggedBody id (appendOnly_shift (appendOnly_write_cstr name) [variant])
          [67] buf
    | CopyData data =>
        simp only [Message.serialize, toPOut_snd]
        exact appendOnly_taggedBody id (appendOnly_extend () data) [100] buf
    | CopyDone =>
        simp only [Message.serialize, unwrapPOut_snd]
        exact appendOnly_taggedBody id (appendOnly_id (Except.ok ())) [99] buf
    | CopyFail message =>
        simp only [Message.serialize, toPOut_snd]
        exact appendOnly_taggedBody id (appendOnly_write_cstr message) [102] buf
    | Describe variant name =>
        simp only [Message.serialize, toPOut_snd]
        exact appendOnly_taggedBody id (appendOnly_shift (appendOnly_write_cstr name) [variant])
          [68] buf
    | Execute portal max_rows =>
        simp only [Message.serialize, toPOut_snd]
        exact appendOnly_taggedBody id
          (appendOnly_step (appendOnly_write_cstr portal)
            (fun _ => appendOnly_extend () (i32BE max_rows))) [69] buf
    | Parse name q param_types =>
        simp only [Message.serialize, toPOut_snd]
        exact appendOnly_taggedBody id
          (appendOnly_step (appendOnly_write_cstr name) fun _ =>
            appendOnly_step (appendOnly_write_cstr q) fun _ =>
            appendOnly_write_counted id param_types (fun t => appendOnly_extend () (u32BE t)))
          [80] buf
    | PasswordMessage password =>
        simp only [Message.serialize, toPOut_snd]
        exact appendOnly_taggedBody id (appendOnly_write_cstr password) [112] buf
    | Query q =>
        simp only [Message.serialize, toPOut_snd]
        exact appendOnly_taggedBody id (appendOnly_write_cstr q) [81] buf
    | SaslInitialResponse mechanism data =>
        simp only [Message.serialize, toPOut_snd]
        exact appendOnly_taggedBody id
          (appendOnly_step (appendOnly_write_cstr mechanism) fun _ =>
            appendOnly_step (appendOnly_checkL id (i32_from_usize data.length)) fun len =>
            fun b => ⟨i32BE len ++ data, by simp [List.append_assoc]⟩) [112] buf
    | SaslResponse data =>
        simp only [Message.serialize, toPOut_snd]
        exact appendOnly_taggedBody id (appendOnly_extend () data) [112] buf
    | SslRequest =>
        simp only [Message.serialize, unwrapPOut_snd]
        exact appendOnly_write_body id (appendOnly_extend () (i32BE 80877103)) buf
    | StartupMessage parameters =>
        simp only [Message.serialize, toPOut_snd]
        exact appendOnly_write_body id
          (appendOnly_step (appendOnly_shift (appendOnly_startupParams parameters)
            (i32BE 196608)) (fun _ => appendOnly_extend () [0])) buf
    | Sync =>
        simp only [Message.serialize, unwrapPOut_snd]
        exact appendOnly_taggedBody id (appendOnly_id (Except.ok ())) [83] buf
    | Terminate =>
        simp only [Message.serialize, unwrapPOut_snd]
        exact appendOnly_taggedBody id (appendOnly_id (Except.ok ())) [88] buf
  · intro T portal statement formats values serializer result_formats buf
    exact appendOnly_bind portal statement formats values serializer result_formats buf

/-! ### Claim C7 -/

theorem startupParams_shape : ∀ (ps : List (Buf × Buf)) (buf out : Buf),
    startupParams ps buf = (Except.ok (), out) → out = buf ++ concatMap pairBytes ps := by
  intro ps
  induction ps with
  | nil =>
      intro buf out h
      simp only [startupParams] at h
      have hout := congrArg Prod.snd h
      simp only at hout
      simp [concatMap, ← hout]
  | cons p rest ih =>
      rcases p with ⟨k, v⟩
      intro buf out h
      simp only [startupParams] at h
      by_cases hk : k.contains 0 = true
      · rw [write_cstr_err hk, step_err] at h
        exact absurd h (by simp)
      · have hk2 : k.contains 0 = false := by revert hk; cases k.contains 0 <;> simp
        rw [write_cstr_ok hk2, step_ok] at h
        by_cases hv : v.contains 0 = true
        · rw [write_cstr_err hv, step_err] at h
          exact absurd h (by simp)
        · have hv2 : v.contains 0 = false := by revert hv; cases v.contains 0 <;> simp
          rw [write_cstr_ok hv2, step_ok] at h
          have hrest := ih _ out h
          rw [hrest]
          simp [concatMap, pairBytes, List.append_assoc]

/-- C7: for every StartupMessage with parameter pairs in a given order, the
encoded output has no leading tag byte, and its framed body is the 4-byte
big-endian integer 196608, then each pair as two zero-terminated C-strings
in the supplied order, then a single trailing zero byte; in particular the
parameters `[("user", "alice"), ("database", "app")]` encode to
`demoStartupBytes`. -/
theorem C7_startup_message_layout :
    (∀ (ps : List (Buf × Buf)) (buf out : Buf),
      startup_message ps buf = (Except.ok (), out) →
      out = buf ++
        (i32BE ((4 + (i32BE 196608 ++ (concatMap pairBytes ps ++ [0])).length : Nat) : Int) ++
          (i32BE 196608 ++ (concatMap pairBytes ps ++ [0]))))
    ∧ startup_message demoParams [] = (Except.ok (), demoStartupBytes) := by
  constructor
  · intro ps buf out h
    simp only [startup_message] at h
    have hA : AppendOnly (fun buf =>
        step (startupParams ps (buf ++ i32BE 196608)) fun _ buf =>
          ((Except.ok () : Except IoError Unit), buf ++ [0])) :=
      appendOnly_step (appendOnly_shift (appendOnly_startupParams ps) (i32BE 196608))
        (fun _ => appendOnly_extend () [0])
    obtain ⟨rest, a, hF, hout, _⟩ := write_body_ok_elim id _ hA buf out h
    cases a
    have hF2 : step (startupParams ps ((buf ++ [0, 0, 0, 0]) ++ i32BE 196608))
        (fun _ buf => ((Except.ok () : Except IoError Unit), buf ++ [0])) =
        (Except.ok (), buf ++ ([0, 0, 0, 0] ++ rest)) := hF
    rcases hsp : startupParams ps ((buf ++ [0, 0, 0, 0]) ++ i32BE 196608) with ⟨res1, b1⟩
    rw [hsp] at hF2
    cases res1 with
    | error e =>
        rw [step_err] at hF2
        exact absurd hF2 (by simp)
    | ok u =>
        cases u
        rw [step_ok] at hF2
        have hb1 := startupParams_shape ps _ b1 hsp
        have hrest : rest = i32BE 196608 ++ (concatMap pairBytes ps ++ [0]) := by
          have hcat : (buf ++ [0, 0, 0, 0]) ++ rest =
              (buf ++ [0, 0, 0, 0]) ++ (i32BE 196608 ++ (concatMap pairBytes ps ++ [0])) := by
            have h2 := congrArg Prod.snd hF2
            simp only at h2
            rw [hb1] at h2
            simp only [List.append_assoc] at h2 ⊢
            exact h2.symm
          exact List.append_cancel_left hcat
        rw [hout, hrest]
  · decide

/-- Witness for C7: the general layout statement applied to the spec's
worked example. -/
theorem C7_witness :
    demoStartupBytes = ([] : Buf) ++
      (i32BE ((4 + (i32BE 196608 ++ (concatMap pairBytes demoParams ++ [0])).length : Nat) : Int) ++
        (i32BE 196608 ++ (concatMap pairBytes demoParams ++ [0]))) :=
  C7_startup_message_layout.1 demoParams [] demoStartupBytes (by decide)

/-! ### Loop computations for the Bind encoder -/

theorem write_body_fst_ok {E α : Type} (lift : IoError → E) (F : EncM E α) (buf buf2 : Buf)
    (a : α) (hF : F (buf ++ [0, 0, 0, 0]) = (Except.ok a, buf2))
    (h : buf2.length - buf.length ≤ 2147483647) :
    (write_body lift F buf).1 = Except.ok () := by
  simp only [write_body, hF, step_ok, checkL_ok lift (i32_from_usize_ok h), step_ok]

theorem wcLoop_pure {E T : Type} :
    ∀ (l : List T) (c : Nat) (buf : Buf),
      wcLoop (E := E) (fun _ buf => (Except.ok (), buf)) l c buf =
        (Except.ok (c + l.length), buf) := by
  intro l
  induction l with
  | nil => intro c buf; simp [wcLoop]
  | cons t rest ih =>
      intro c buf
      simp only [wcLoop, step_ok]
      rw [ih]
      simp only [List.length_cons]
      rw [show c + 1 + rest.length = c + (rest.length + 1) by omega]

theorem wcLoop_extend {E T : Type} (enc : T → Buf) :
    ∀ (l : List T) (c : Nat) (buf : Buf),
      wcLoop (E := E) (fun t buf => (Except.ok (), buf ++ enc t)) l c buf =
        (Except.ok (c + l.length), buf ++ concatMap enc l) := by
  intro l
  induction l with
  | nil => intro c buf; simp [wcLoop, concatMap]
  | cons t rest ih =>
      intro c buf
      simp only [wcLoop, step_ok]
      rw [ih]
      simp only [List.length_cons, concatMap, Prod.mk.injEq]
      constructor
      · congr 1
        omega
      · simp [List.append_assoc]

theorem formats_counted_run {E : Type} (lift : IoError → E) (formats : List Int)
    (hf : formats.length ≤ 32767) (buf : Buf) :
    write_counted lift formats (fun f buf => (Except.ok (), buf ++ i16BE f)) buf =
      (Except.ok (),
        buf ++ (i16BE ((formats.length : Nat) : Int) ++ concatMap i16BE formats)) := by
  have hl : wcLoop (E := E) (fun f buf => (Except.ok (), buf ++ i16BE f)) formats 0
      (buf ++ [0, 0]) =
      (Except.ok (0 + formats.length), buf ++ ([0, 0] ++ concatMap i16BE formats)) := by
    rw [wcLoop_extend i16BE formats 0 (buf ++ [0, 0]), List.append_assoc]
  have h := write_counted_ok_of lift formats _ buf (0 + formats.length)
    (concatMap i16BE formats) hl (by omega)
  simpa using h

theorem wcLoop_internal_some_nil :
    ∀ (n c : Nat) (buf : Buf),
      wcLoop (fun v => write_nullable BoxError.io (internalSerializer v))
        (List.replicate n (some ([] : Buf))) c buf =
        (Except.ok (c + n), buf ++ List.replicate (4 * n) (0 : UInt8)) := by
  intro n
  induction n with
  | zero => intro c buf; simp [wcLoop, List.replicate]
  | succ k ih =>
      intro c buf
      rw [List.replicate_succ]
      simp only [wcLoop]
      have h0 : i32BE 0 = [0, 0, 0, 0] := rfl
      have hser : write_nullable BoxError.io (internalSerializer (some ([] : Buf))) buf =
          (Except.ok (), buf ++ [0, 0, 0, 0]) := by
        simp [write_nullable, internalSerializer, i32_from_usize, h0]
      rw [hser, step_ok, ih]
      have h4 : 4 * (k + 1) = 4 + 4 * k := by ring
      rw [h4, List.replicate_add]
      have hr4 : List.replicate 4 (0 : UInt8) = [0, 0, 0, 0] := rfl
      rw [hr4]
      simp only [Prod.mk.injEq]
      constructor
      · congr 1
        omega
      · simp [List.append_assoc]

/-- The run of the Bind encoder up to and including the values array, when
the portal and statement strings are clean and the formats count fits:
a failure of the values counted-sequence writer surfaces through the boxed
error channel as `BindError.Conversion`. -/
theorem bind_values_err {T : Type} (portal statement : Buf) (formats : List Int)
    (vs : List T) (ser : T → EncM BoxError IsNull) (rfs : List Int) (buf : Buf)
    (hp : portal.contains 0 = false) (hs : statement.contains 0 = false)
    (hf : formats.length ≤ 32767) (e : BoxError) (b : Buf)
    (hv : write_counted BoxError.io vs (fun v => write_nullable BoxError.io (ser v))
        (bindPre portal statement formats buf) = (Except.error e, b)) :
    bind portal statement formats vs ser rfs buf =
      (Except.error (BindError.Conversion e), b) := by
  simp only [bind]
  apply write_body_err_of
  have h1 := adapt_ok BindError.Serialization
    (write_cstr_ok hp ((buf ++ [66]) ++ [0, 0, 0, 0]))
  have h2 := adapt_ok BindError.Serialization
    (write_cstr_ok hs (((buf ++ [66]) ++ [0, 0, 0, 0]) ++ (portal ++ [0])))
  have h3 : adapt BindError.Serialization
      (write_counted id formats (fun f buf => (Except.ok (), buf ++ i16BE f)))
      ((((buf ++ [66]) ++ [0, 0, 0, 0]) ++ (portal ++ [0])) ++ (statement ++ [0])) =
      (Except.ok (), bindPre portal statement formats buf) :=
    adapt_ok BindError.Serialization (formats_counted_run id formats hf _)
  have h4 := adapt_err BindError.Conversion hv
  simp only [h1, step_ok, h2, h3, h4, step_err]

/-- The run of the Bind encoder when every stage succeeds and the final
length fits: the encoder returns success. -/
theorem bind_values_ok {T : Type} (portal statement : Buf) (formats : List Int)
    (vs : List T) (ser : T → EncM BoxError IsNull) (rfs : List Int) (buf : Buf)
    (hp : portal.contains 0 = false) (hs : statement.contains 0 = false)
    (hf : formats.length ≤ 32767) (hrf : rfs.length ≤ 32767) (rest : Buf)
    (hv : write_counted BoxError.io vs (fun v => write_nullable BoxError.io (ser v))
        (bindPre portal statement formats buf) =
      (Except.ok (), bindPre portal statement formats buf ++ rest))
    (hlen : (((bindPre portal statement formats buf ++ rest) ++
        (i16BE ((rfs.length : Nat) : Int) ++ concatMap i16BE rfs)).length -
        (buf ++ [66]).length) ≤ 2147483647) :
    (bind portal statement formats vs ser rfs buf).1 = Except.ok () := by
  simp only [bind]
  have h1 := adapt_ok BindError.Serialization
    (write_cstr_ok hp ((buf ++ [66]) ++ [0, 0, 0, 0]))
  have h2 := adapt_ok BindError.Serialization
    (write_cstr_ok hs (((buf ++ [66]) ++ [0, 0, 0, 0]) ++ (portal ++ [0])))
  have h3 : adapt BindError.Serialization
      (write_counted id formats (fun f buf => (Except.ok (), buf ++ i16BE f)))
      ((((buf ++ [66]) ++ [0, 0, 0, 0]) ++ (portal ++ [0])) ++ (statement ++ [0])) =
      (Except.ok (), bindPre portal statement formats buf) :=
    adapt_ok BindError.Serialization (formats_counted_run id formats hf _)
  have h4 := adapt_ok BindError.Conversion hv
  have h5 := adapt_ok BindError.Serialization
    (formats_counted_run id rfs hrf (bindPre portal statement formats buf ++ rest))
  apply write_body_fst_ok BindError.Serialization _ (buf ++ [66])
    ((bindPre portal statement formats buf ++ rest) ++
      (i16BE ((rfs.length : Nat) : Int) ++ concatMap i16BE rfs)) ()
  · simp only [h1, step_ok, h2, h3, h4, h5]
  · exact hlen

/-- A values count of 32768 overflows the signed 16-bit count inside the
Bind values array and, through the boxed error channel, surfaces as a
`Conversion`-kind error. -/
theorem bind_32768_overflow :
    bind [] [] [] (List.replicate 32768 (some ([] : Buf))) internalSerializer [] [] =
      (Except.error (BindError.Conversion (BoxError.io
        ⟨ErrorKind.overflow, "value too large to transmit"⟩)),
        (bindPre [] [] [] [] ++ [0, 0]) ++ List.replicate (4 * 32768) (0 : UInt8)) := by
  have hl := wcLoop_internal_some_nil 32768 0 (bindPre [] [] [] [] ++ [0, 0])
  have hv := write_counted_overflow BoxError.io (List.replicate 32768 (some ([] : Buf)))
    (fun v => write_nullable BoxError.io (internalSerializer v)) (bindPre [] [] [] [])
    ((bindPre [] [] [] [] ++ [0, 0]) ++ List.replicate (4 * 32768) (0 : UInt8))
    (0 + 32768) hl (by omega)
  exact bind_values_err [] [] [] _ internalSerializer [] [] rfl rfl (by simp) _ _ hv

/-- A values count of exactly 32767 fits the signed 16-bit count and the
whole Bind frame fits the signed 32-bit length, so the encoder succeeds. -/
theorem bind_32767_ok :
    (bind [] [] [] (List.replicate 32767 (some ([] : Buf))) internalSerializer [] []).1 =
      Except.ok () := by
  have hl := wcLoop_internal_some_nil 32767 0 (bindPre [] [] [] [] ++ [0, 0])
  rw [List.append_assoc] at hl
  have hv := write_counted_ok_of BoxError.io (List.replicate 32767 (some ([] : Buf)))
    (fun v => write_nullable BoxError.io (internalSerializer v)) (bindPre [] [] [] [])
    (0 + 32767) (List.replicate (4 * 32767) (0 : UInt8)) hl (by omega)
  apply bind_values_ok [] [] [] _ internalSerializer [] [] rfl rfl (by simp) (by simp)
    (i16BE ((0 + 32767 : Nat) : Int) ++ List.replicate (4 * 32767) (0 : UInt8))
  · exact hv
  · have hbase : ((([] : Buf) ++ [66]).length) = 1 := by decide
    have hbp : (bindPre [] [] [] ([] : Buf)).length = 9 := by decide
    have htail : ((i16BE ((List.length ([] : List Int) : Nat) : Int) ++
        concatMap i16BE ([] : List Int)).length) = 2 := by decide
    have hrest : ((i16BE ((0 + 32767 : Nat) : Int) ++
        List.replicate (4 * 32767) (0 : UInt8)).length) = 2 + 4 * 32767 := by
      rw [List.length_append, List.length_replicate, i16BE_length]
    rw [hbase, List.length_append, List.length_append, hbp, htail, hrest]
    norm_num

/-- When the per-value serializer succeeds on the first `i` values and fails
on the `i`-th, the counting loop over the nullable writer stops there: it
returns the serializer's error, and the run over the whole list equals the
run over the list truncated just past the failing value. -/
theorem wcLoop_conv {T : Type} (ser : T → EncM BoxError IsNull) :
    ∀ (vs : List T) (i : Nat) (hi : i < vs.length) (ce : BoxError) (scr : Buf)
      (c : Nat) (buf : Buf),
      (∀ j (hj : j < i), ∃ isn sc, ser (vs.get ⟨j, hj.trans hi⟩) [] = (Except.ok isn, sc) ∧
          (isn = IsNull.no → sc.length ≤ 2147483647)) →
      ser (vs.get ⟨i, hi⟩) [] = (Except.error ce, scr) →
      ∃ b : Buf,
        wcLoop (fun v => write_nullable BoxError.io (ser v)) vs c buf =
          (Except.error ce, b) ∧
        wcLoop (fun v => write_nullable BoxError.io (ser v)) (vs.take (i + 1)) c buf =
          (Except.error ce, b) := by
  intro vs
  induction vs with
  | nil => intro i hi; exact absurd hi (by simp)
  | cons v rest ih =>
      intro i hi ce scr c buf hprev herr
      cases i with
      | zero =>
          have herr2 : ser v [] = (Except.error ce, scr) := by
            simpa using herr
          have hv : write_nullable BoxError.io (ser v) buf = (Except.error ce, buf) := by
            simp only [write_nullable, herr2]
          refine ⟨buf, ?_, ?_⟩
          · simp only [wcLoop, hv, step_err]
          · rw [List.take_succ_cons]
            simp only [wcLoop, hv, step_err]
      | succ k =>
          obtain ⟨isn, sc, hok, hb⟩ := hprev 0 (Nat.succ_pos k)
          have hok2 : ser v [] = (Except.ok isn, sc) := by
            simpa using hok
          have hv : ∃ buf1, write_nullable BoxError.io (ser v) buf = (Except.ok (), buf1) := by
            cases isn with
            | yes => exact ⟨buf ++ i32BE (-1), by simp only [write_nullable, hok2]⟩
            | no =>
                refine ⟨buf ++ i32BE ((sc.length : Nat) : Int) ++ sc, ?_⟩
                simp only [write_nullable, hok2, i32_from_usize_ok (hb rfl)]
          obtain ⟨buf1, hv⟩ := hv
          have hi2 : k < rest.length := by simpa using hi
          have herr2 : ser (rest.get ⟨k, hi2⟩) [] = (Except.error ce, scr) := by
            simpa using herr
          have hprev2 : ∀ j (hj : j < k),
              ∃ isn sc, ser (rest.get ⟨j, hj.trans hi2⟩) [] = (Except.ok isn, sc) ∧
                (isn = IsNull.no → sc.length ≤ 2147483647) := by
            intro j hj
            obtain ⟨isn2, sc2, h1, h2⟩ := hprev (j + 1) (Nat.succ_lt_succ hj)
            exact ⟨isn2, sc2, by simpa using h1, h2⟩
          obtain ⟨b, hb1, hb2⟩ := ih k hi2 ce scr (c + 1) buf1 hprev2 herr2
          refine ⟨b, ?_, ?_⟩
          · simp only [wcLoop, hv, step_ok, hb1]
          · rw [List.take_succ_cons]
            simp only [wcLoop, hv, step_ok, hb2]

/-! ### Claim C2 (corrected) -/

/-- C2 counterexample: a purely framing failure — a values count of 32768
with a serializer that never fails — comes back from `bind` as a
`Conversion`-kind error wrapping the overflow io error, not as the
`Serialization` kind: the values array runs with the boxed error type,
whose `From io::Error` conversion swallows framing overflows.  This refutes
the sentence that a count-overflow framing failure is returned with the
`Serialization` kind and that the two kinds are never conflated. -/
theorem C2_counterexample :
    (bind [] [] [] (List.replicate 32768 (some ([] : Buf))) internalSerializer [] []).1 =
      Except.error (BindError.Conversion (BoxError.io
        ⟨ErrorKind.overflow, "value too large to transmit"⟩)) := by
  rw [bind_32768_overflow]

/-- C2 amended: when the caller-supplied per-value serializer fails on the
`i`-th value after succeeding on the earlier ones (and the preceding fields
are encodable), `bind` stops encoding at that value — the result equals the
run on the list truncated just past the failing value — and returns an
error of the `Conversion` kind carrying the serializer's error; the
`Conversion` and `Serialization` constructors are distinct.  However, an
oversized values count is routed through the boxed error channel and also
surfaces as `Conversion`, so kind alone does not separate value-conversion
failures from values-array framing failures (only the formats and
result-formats counts report `Serialization`). -/
theorem C2_bind_conversion_error {T : Type} (portal statement : Buf) (formats : List Int)
    (vs : List T) (ser : T → EncM BoxError IsNull) (rfs : List Int) (buf : Buf)
    (i : Nat) (hi : i < vs.length) (ce : BoxError) (scr : Buf)
    (hp : portal.contains 0 = false) (hs : statement.contains 0 = false)
    (hf : formats.length ≤ 32767)
    (hprev : ∀ j (hj : j < i),
      ∃ isn sc, ser (vs.get ⟨j, hj.trans hi⟩) [] = (Except.ok isn, sc) ∧
        (isn = IsNull.no → sc.length ≤ 2147483647))
    (herr : ser (vs.get ⟨i, hi⟩) [] = (Except.error ce, scr)) :
    (bind portal statement formats vs ser rfs buf).1 =
      Except.error (BindError.Conversion ce) ∧
    bind portal statement formats vs ser rfs buf =
      bind portal statement formats (vs.take (i + 1)) ser rfs buf ∧
    (∀ (s : BoxError) (e : IoError), BindError.Conversion s ≠ BindError.Serialization e) ∧
    (bind [] [] [] (List.replicate 32768 (some ([] : Buf))) internalSerializer [] []).1 =
      Except.error (BindError.Conversion (BoxError.io
        ⟨ErrorKind.overflow, "value too large to transmit"⟩)) := by
  obtain ⟨b, hw1, hw2⟩ := wcLoop_conv ser vs i hi ce scr 0
    (bindPre portal statement formats buf ++ [0, 0]) hprev herr
  have hv1 := write_counted_err BoxError.io vs _ (bindPre portal statement formats buf) b ce hw1
  have hv2 := write_counted_err BoxError.io (vs.take (i + 1)) _
    (bindPre portal statement formats buf) b ce hw2
  have hb1 := bind_values_err portal statement formats vs ser rfs buf hp hs hf ce b hv1
  have hb2 := bind_values_err portal statement formats (vs.take (i + 1)) ser rfs buf
    hp hs hf ce b hv2
  refine ⟨by rw [hb1], hb1.trans hb2.symm, fun s e h => BindError.noConfusion h, ?_⟩
  rw [bind_32768_overflow]

/-- Witness for the amended C2: five values with a serializer failing on
the third. -/
theorem C2_witness :
    (bind [] [] [] [0, 1, 2, 3, 4] demoSer [] []).1 =
      Except.error (BindError.Conversion (BoxError.other "bad")) ∧
    bind [] [] [] [0, 1, 2, 3, 4] demoSer [] [] =
      bind [] [] [] (List.take (2 + 1) [0, 1, 2, 3, 4]) demoSer [] [] ∧
    (∀ (s : BoxError) (e : IoError), BindError.Conversion s ≠ BindError.Serialization e) ∧
    (bind [] [] [] (List.replicate 32768 (some ([] : Buf))) internalSerializer [] []).1 =
      Except.error (BindError.Conversion (BoxError.io
        ⟨ErrorKind.overflow, "value too large to transmit"⟩)) :=
  C2_bind_conversion_error [] [] [] [0, 1, 2, 3, 4] demoSer [] [] 2 (by decide)
    (BoxError.other "bad") [] rfl rfl (by decide)
    (by
      intro j hj
      interval_cases j
      · exact ⟨IsNull.yes, [], rfl, fun h => absurd h (by decide)⟩
      · exact ⟨IsNull.yes, [], rfl, fun h => absurd h (by decide)⟩)
    (by decide)

/-! ### Claim C4 -/

/-- C4: for every counted sequence whose item loop succeeded, a count above
32767 makes the counted-sequence writer fail with the framing-overflow
error — reported as an error, never wrapped or truncated — while a count of
at most 32767 succeeds with the exact count patched in.  In particular a
Bind with 32768 zero-length parameter values fails (the overflow coming
back through the boxed error channel as `BindError.Conversion`) while one
with 32767 succeeds. -/
theorem C4_counted_sequence_limit :
    (∀ (E T : Type) (lift : IoError → E) (items : List T) (ser : T → EncM E Unit)
        (buf out : Buf) (c : Nat),
      wcLoop ser items 0 (buf ++ [0, 0]) = (Except.ok c, out) → 32767 < items.length →
      write_counted lift items ser buf =
        (Except.error (lift ⟨ErrorKind.overflow, "value too large to transmit"⟩), out))
    ∧ (∀ (E T : Type) (lift : IoError → E) (items : List T) (ser : T → EncM E Unit)
        (buf rest : Buf) (c : Nat),
      wcLoop ser items 0 (buf ++ [0, 0]) = (Except.ok c, buf ++ ([0, 0] ++ rest)) →
      items.length ≤ 32767 →
      write_counted lift items ser buf =
        (Except.ok (), buf ++ (i16BE ((c : Nat) : Int) ++ rest)))
    ∧ (bind [] [] [] (List.replicate 32768 (some ([] : Buf))) internalSerializer [] []).1 =
        Except.error (BindError.Conversion (BoxError.io
          ⟨ErrorKind.overflow, "value too large to transmit"⟩))
    ∧ (bind [] [] [] (List.replicate 32767 (some ([] : Buf))) internalSerializer [] []).1 =
        Except.ok () := by
  refine ⟨?_, ?_, ?_, bind_32767_ok⟩
  · intro E T lift items ser buf out c hl hn
    have hc := wcLoop_ok_count ser items 0 (buf ++ [0, 0]) out c hl
    exact write_counted_overflow lift items ser buf out c hl (by omega)
  · intro E T lift items ser buf rest c hl hn
    have hc := wcLoop_ok_count ser items 0 (buf ++ [0, 0]) (buf ++ ([0, 0] ++ rest)) c hl
    exact write_counted_ok_of lift items ser buf c rest hl (by omega)
  · rw [bind_32768_overflow]

/-- Witness for C4: a counted sequence of 32768 trivially-serialized items
overflows; a counted sequence of one 16-bit format code succeeds. -/
theorem C4_witness :
    write_counted id (List.replicate 32768 ()) (fun _ buf => (Except.ok (), buf)) [] =
      (Except.error ⟨ErrorKind.overflow, "value too large to transmit"⟩, [] ++ [0, 0]) ∧
    write_counted id [(5 : Int)] (fun f buf => (Except.ok (), buf ++ i16BE f)) [] =
      (Except.ok (), [] ++ (i16BE ((1 : Nat) : Int) ++ i16BE 5)) := by
  constructor
  · exact C4_counted_sequence_limit.1 IoError Unit id (List.replicate 32768 ()) _ []
      ([] ++ [0, 0]) (0 + (List.replicate 32768 ()).length)
      (wcLoop_pure (List.replicate 32768 ()) 0 ([] ++ [0, 0]))
      (by rw [List.length_replicate]; omega)
  · exact C4_counted_sequence_limit.2.1 IoError Int id [5] _ [] (i16BE 5) 1
      (by decide) (by decide)

/-! ### Claim C10 (code bug) -/

/-- A Bind arm of `Message.serialize` whose underlying `bind` call returns a
`Conversion`-kind error runs into `unreachable!()`. -/
theorem serialize_bind_conv_panic (portal statement : Buf) (formats : List Int)
    (values : List (Option Buf)) (rfs : List Int) (buf : Buf) (e : BoxError) (b : Buf)
    (hb : bind portal statement formats values internalSerializer rfs buf =
      (Except.error (BindError.Conversion e), b)) :
    (Message.serialize (Message.Bind portal statement formats values rfs) buf).1 =
      POut.panic := by
  simp only [Message.serialize, hb]

/-- C10: the per-value serializer supplied internally by `Message.serialize`
indeed never returns an error — it reports `no` for `Some` and `yes` for
`None` — yet the `Conversion` branch of the Bind arm is still reachable: a
values count of 32768 overflows the 16-bit count inside the values array
and that overflow returns through the boxed error channel as
`BindError.Conversion`, so `serialize` hits `unreachable!()` (embedded as
`POut.panic`) instead of returning an io error. -/
theorem C10_serialize_bind_panic :
    (∀ (v : Option Buf) (buf : Buf),
      (internalSerializer v buf).1 =
        Except.ok (match v with | some _ => IsNull.no | none => IsNull.yes))
    ∧ (Message.serialize
        (Message.Bind [] [] [] (List.replicate 32768 (some ([] : Buf))) []) []).1 =
      POut.panic := by
  constructor
  · intro v buf
    cases v <;> rfl
  · exact serialize_bind_conv_panic [] [] [] _ [] [] _ _ bind_32768_overflow

end frontend
